import Mathlib

/-!
Shallow embedding of `src/claude_monitor/analyzers/tokens.py` (the
`TokenAnalyzer` cost-analysis layer of claude_monitor) and proofs about it.

Modelling conventions:
* Python `float` amounts (costs, rates, percentages) are modelled as exact
  rationals `ℚ`; token counts are `ℕ`.
* Python `dict`s are modelled as association lists `List (key × value)` whose
  order is the dict's insertion/iteration order (Python dicts preserve
  insertion order).
* `TokenAnalyzer`'s methods read their data from the external
  `SessionParser` collaborator (`self.session_parser.get_stats(...)` /
  `get_project_stats(...)`); here the parser's result is passed to each
  function as an explicit argument.
-/

/-- Modelled from the spec: `TokenUsage` (spec §3), defined in the repository's
`parsers/sessions.py` which is not under `src/`. Four non-negative integer
counters. -/
structure TokenUsage where
  input_tokens : ℕ
  output_tokens : ℕ
  cache_creation_input_tokens : ℕ
  cache_read_input_tokens : ℕ
deriving DecidableEq

/-- Modelled from the spec (§3): `total_input_tokens = input_tokens +
cache_creation_input_tokens + cache_read_input_tokens`. -/
def TokenUsage.total_input_tokens (u : TokenUsage) : ℕ :=
  u.input_tokens + u.cache_creation_input_tokens + u.cache_read_input_tokens

/-- Modelled from the spec (§3): `cache_efficiency_percentage =
100 * cache_read_input_tokens / total_input_tokens` (0 if the denominator is
0; clamped to [0,100]). -/
def TokenUsage.cache_efficiency_percentage (u : TokenUsage) : ℚ :=
  if u.total_input_tokens = 0 then 0
  else
    min 100 (max 0
      (100 * (u.cache_read_input_tokens : ℚ) / (u.total_input_tokens : ℚ)))

/-- One entry of the pricing table: four per-million-token rates
(tokens.py, values of `MODEL_PRICING`). -/
structure ModelPricing where
  input_per_mtok : ℚ
  output_per_mtok : ℚ
  cache_write_per_mtok : ℚ
  cache_read_per_mtok : ℚ
deriving DecidableEq

/-- tokens.py lines 12-34: `MODEL_PRICING`, the model → rates table, in source
order (Sonnet 4.5, Haiku 4.5, Opus 4). -/
def MODEL_PRICING : List (String × ModelPricing) :=
  [("claude-sonnet-4-5-20250929",
      { input_per_mtok := 3, output_per_mtok := 15,
        cache_write_per_mtok := 375/100, cache_read_per_mtok := 30/100 }),
   ("claude-haiku-4-5-20251001",
      { input_per_mtok := 1, output_per_mtok := 5,
        cache_write_per_mtok := 125/100, cache_read_per_mtok := 10/100 }),
   ("claude-opus-4-20250514",
      { input_per_mtok := 15, output_per_mtok := 75,
        cache_write_per_mtok := 1875/100, cache_read_per_mtok := 150/100 })]

/-- tokens.py line 37: `DEFAULT_PRICING = MODEL_PRICING['claude-sonnet-4-5-20250929']`
(the Sonnet 4.5 entry, written out; `DEFAULT_PRICING_is_sonnet_entry` below
checks it against the table). -/
def DEFAULT_PRICING : ModelPricing :=
  { input_per_mtok := 3, output_per_mtok := 15,
    cache_write_per_mtok := 375/100, cache_read_per_mtok := 30/100 }

/-- `DEFAULT_PRICING` is exactly the table's Sonnet 4.5 entry, as in the
source's aliasing assignment. -/
theorem DEFAULT_PRICING_is_sonnet_entry :
    MODEL_PRICING.lookup "claude-sonnet-4-5-20250929" = some DEFAULT_PRICING := by
  rfl

/-- tokens.py lines 40-47: `CostBreakdown`, four cost fields. -/
@[ext]
structure CostBreakdown where
  input_cost : ℚ
  output_cost : ℚ
  cache_write_cost : ℚ
  cache_read_cost : ℚ
deriving DecidableEq

/-- tokens.py lines 49-52: `total_cost` property. -/
def CostBreakdown.total_cost (c : CostBreakdown) : ℚ :=
  c.input_cost + c.output_cost + c.cache_write_cost + c.cache_read_cost

/-- tokens.py lines 54-62: `cache_savings` property, computed with
`DEFAULT_PRICING`'s rates. -/
def CostBreakdown.cache_savings (c : CostBreakdown) : ℚ :=
  (c.cache_read_cost / DEFAULT_PRICING.cache_read_per_mtok)
      * DEFAULT_PRICING.input_per_mtok
    - c.cache_read_cost

/-- tokens.py lines 65-90: `TokenSummary`. -/
structure TokenSummary where
  total_tokens : TokenUsage
  cost_breakdown : CostBreakdown
  cache_efficiency_pct : ℚ
deriving DecidableEq

/-- tokens.py lines 73-76: `total_cost` property. -/
def TokenSummary.total_cost (s : TokenSummary) : ℚ :=
  s.cost_breakdown.total_cost

/-- tokens.py lines 78-81: `net_cost` property; the body returns
`self.cost_breakdown.total_cost`. -/
def TokenSummary.net_cost (s : TokenSummary) : ℚ :=
  s.cost_breakdown.total_cost

/-- tokens.py lines 83-86: `cache_savings` property. -/
def TokenSummary.cache_savings (s : TokenSummary) : ℚ :=
  s.cost_breakdown.cache_savings

/-- Modelled from the spec: `SessionStats` / `ProjectStats` (spec §3), defined
in the repository's `parsers/sessions.py` which is not under `src/`. Only the
fields the analyzer reads are modelled: the per-model usage mapping (an
association list in insertion order) and the merged total. -/
structure SessionStats where
  model_usage : List (String × TokenUsage)
  total_tokens : TokenUsage
deriving DecidableEq

/-- tokens.py lines 111-136: `TokenAnalyzer.calculate_cost`. The pricing is
`MODEL_PRICING.get(model, DEFAULT_PRICING)`: a `None` model or a model id not
in the table falls back to `DEFAULT_PRICING`. -/
def calculate_cost (tokens : TokenUsage) (model : Option String) : CostBreakdown :=
  let pricing := (model.bind (fun m => MODEL_PRICING.lookup m)).getD DEFAULT_PRICING
  { input_cost := ((tokens.input_tokens : ℚ) / 1000000) * pricing.input_per_mtok,
    output_cost := ((tokens.output_tokens : ℚ) / 1000000) * pricing.output_per_mtok,
    cache_write_cost :=
      ((tokens.cache_creation_input_tokens : ℚ) / 1000000) * pricing.cache_write_per_mtok,
    cache_read_cost :=
      ((tokens.cache_read_input_tokens : ℚ) / 1000000) * pricing.cache_read_per_mtok }

/-- The four per-category costs of a `TokenUsage` under a given pricing entry:
`count / 1_000_000 * rate_per_million` for each category. -/
def cost_with_pricing (p : ModelPricing) (tokens : TokenUsage) : CostBreakdown :=
  { input_cost := ((tokens.input_tokens : ℚ) / 1000000) * p.input_per_mtok,
    output_cost := ((tokens.output_tokens : ℚ) / 1000000) * p.output_per_mtok,
    cache_write_cost :=
      ((tokens.cache_creation_input_tokens : ℚ) / 1000000) * p.cache_write_per_mtok,
    cache_read_cost :=
      ((tokens.cache_read_input_tokens : ℚ) / 1000000) * p.cache_read_per_mtok }

/-- tokens.py lines 138-167: `TokenAnalyzer.get_summary`. The parser's
aggregated stats (`self.session_parser.get_stats(...)`) are the argument; the
four cost fields are accumulated per `(model, tokens)` pair of
`stats.model_usage`, starting from an all-zero `CostBreakdown`. -/
def get_summary (stats : SessionStats) : TokenSummary :=
  let total_cost := stats.model_usage.foldl
    (fun acc mu =>
      let model_cost := calculate_cost mu.2 (some mu.1)
      { input_cost := acc.input_cost + model_cost.input_cost,
        output_cost := acc.output_cost + model_cost.output_cost,
        cache_write_cost := acc.cache_write_cost + model_cost.cache_write_cost,
        cache_read_cost := acc.cache_read_cost + model_cost.cache_read_cost })
    { input_cost := 0, output_cost := 0, cache_write_cost := 0, cache_read_cost := 0 }
  { total_tokens := stats.total_tokens,
    cost_breakdown := total_cost,
    cache_efficiency_pct := stats.total_tokens.cache_efficiency_percentage }

/-- Python's `sorted(l, key=key, reverse=True)`: a stable sort that orders
entries by `key` descending — an element goes before another exactly when its
key is strictly greater, equal-key elements keeping their original relative
order. This is `List.insertionSort` with the relation `key b ≤ key a`. -/
def sorted_desc {α : Type} (key : α → ℚ) (l : List α) : List α :=
  @List.insertionSort α (fun a b => key b ≤ key a)
    (fun a b => inferInstanceAs (Decidable (key b ≤ key a))) l

/-- tokens.py lines 169-184: `TokenAnalyzer.get_model_breakdown`. Builds
`model → (tokens, total cost)` from the parser's per-model aggregate, then
`dict(sorted(breakdown.items(), key=lambda x: x[1][1], reverse=True))`. -/
def get_model_breakdown (stats : SessionStats) : List (String × TokenUsage × ℚ) :=
  let breakdown := stats.model_usage.map
    (fun mu => (mu.1, mu.2, (calculate_cost mu.2 (some mu.1)).total_cost))
  sorted_desc (fun x => x.2.2) breakdown

/-- tokens.py lines 186-209: `TokenAnalyzer.get_model_by_project_breakdown`.
Per project, a per-model `(tokens, cost)` mapping sorted by cost descending;
a project whose `project_models` dict is empty is skipped (`if project_models:`);
projects are then sorted by their total cost (sum of their models' costs)
descending. -/
def get_model_by_project_breakdown (project_stats : List (String × SessionStats)) :
    List (String × List (String × TokenUsage × ℚ)) :=
  let result := project_stats.filterMap (fun ps =>
    let project_models := ps.2.model_usage.map
      (fun mu => (mu.1, mu.2, (calculate_cost mu.2 (some mu.1)).total_cost))
    if project_models.isEmpty then none
    else some (ps.1, sorted_desc (fun x => x.2.2) project_models))
  sorted_desc (fun e => (e.2.map (fun mc => mc.2.2)).sum) result

/-- tokens.py lines 211-229: `TokenAnalyzer.get_project_breakdown`. One
`TokenSummary` per project from the project's merged `total_tokens`, priced by
`calculate_cost(stats.total_tokens)` with no model argument; the dict is
returned in `project_stats` iteration order, with no sorting step. -/
def get_project_breakdown (project_stats : List (String × SessionStats)) :
    List (String × TokenSummary) :=
  project_stats.map (fun ps =>
    (ps.1,
      { total_tokens := ps.2.total_tokens,
        cost_breakdown := calculate_cost ps.2.total_tokens none,
        cache_efficiency_pct := ps.2.total_tokens.cache_efficiency_percentage }))

/-- Round to the nearest integer, ties to the even integer: the rounding CPython
applies when formatting a decimal-representable float value with `:.0f`. -/
def round_half_even (q : ℚ) : ℤ :=
  let f : ℤ := Int.floor q
  if q - f < 1/2 then f
  else if (1 : ℚ)/2 < q - f then f + 1
  else if f % 2 = 0 then f else f + 1

/-- CPython `f"{q:.0f}"` for a non-negative value, with the float modelled as
the exact rational `q`. -/
def fmt_fixed0 (q : ℚ) : String := toString (round_half_even q)

/-- CPython `f"{q:.1f}"` for a non-negative value, with the float modelled as
the exact rational `q`: round `10*q` half-to-even, then print units, a dot and
the tenths digit. -/
def fmt_fixed1 (q : ℚ) : String :=
  let m := round_half_even (10 * q)
  toString (m / 10) ++ "." ++ toString (m % 10)

/-- tokens.py lines 231-247: `TokenAnalyzer.format_token_count`. -/
def format_token_count (count : ℕ) : String :=
  if 1000000 ≤ count then fmt_fixed1 ((count : ℚ) / 1000000) ++ "M"
  else if 1000 ≤ count then fmt_fixed0 ((count : ℚ) / 1000) ++ "K"
  else toString count

theorem sorted_desc_perm {α : Type} (key : α → ℚ) (l : List α) :
    (sorted_desc key l).Perm l :=
  List.perm_insertionSort _ l

theorem sorted_desc_pairwise {α : Type} (key : α → ℚ) (l : List α) :
    (sorted_desc key l).Pairwise (fun a b => key b ≤ key a) := by
  haveI ht : IsTotal α (fun a b => key b ≤ key a) := ⟨fun a b => le_total (key b) (key a)⟩
  haveI htr : IsTrans α (fun a b => key b ≤ key a) :=
    ⟨fun a b c hab hbc => le_trans hbc hab⟩
  exact List.sorted_insertionSort _ l

theorem orderedInsert_filter_eq {α : Type} (key : α → ℚ) (c : ℚ) (x : α) (l : List α) :
    (@List.orderedInsert α (fun a b => key b ≤ key a)
        (fun a b => inferInstanceAs (Decidable (key b ≤ key a))) x l).filter
        (fun z => decide (key z = c))
      = if key x = c then x :: l.filter (fun z => decide (key z = c))
        else l.filter (fun z => decide (key z = c)) := by
  induction l with
  | nil =>
    by_cases hc : key x = c <;> simp [List.orderedInsert, hc]
  | cons y ys ih =>
    simp only [List.orderedInsert]
    by_cases hr : key y ≤ key x
    · rw [if_pos hr]
      by_cases hc : key x = c <;> simp [List.filter_cons, hc]
    · rw [if_neg hr]
      by_cases hc : key x = c
      · have hy : ¬ (key y = c) := by
          have hlt : key x < key y := lt_of_not_le hr
          rw [hc] at hlt
          exact fun hyc => absurd hyc (ne_of_gt hlt)
        simp [List.filter_cons, hy, ih, hc]
      · simp [List.filter_cons, ih, hc]

/-- Stability of `sorted_desc`: the entries whose key equals any fixed value
`c` appear in the output in exactly the order they had in the input. -/
theorem sorted_desc_filter_eq {α : Type} (key : α → ℚ) (c : ℚ) (l : List α) :
    (sorted_desc key l).filter (fun z => decide (key z = c))
      = l.filter (fun z => decide (key z = c)) := by
  induction l with
  | nil => rfl
  | cons x xs ih =>
    have hstep : sorted_desc key (x :: xs)
        = @List.orderedInsert α (fun a b => key b ≤ key a)
            (fun a b => inferInstanceAs (Decidable (key b ≤ key a))) x (sorted_desc key xs) :=
      rfl
    rw [hstep, orderedInsert_filter_eq]
    by_cases hc : key x = c <;> simp [hc, ih, List.filter_cons]

/-- Keys of `get_project_breakdown` are the projects in input order (shared
helper). -/
theorem map_fst_get_project_breakdown (ps : List (String × SessionStats)) :
    (get_project_breakdown ps).map Prod.fst = ps.map Prod.fst := by
  induction ps with
  | nil => rfl
  | cons a l ih => simp [get_project_breakdown] at ih ⊢

/-- C2: `calculate_cost` prices each of the four categories as
`count / 1_000_000 * rate_per_million` from the model's pricing-table entry,
falling back to the default entry for an absent (`none`) or unknown model and
never failing (it is a total function); in particular
`{input: 2_000_000, output: 1_000_000, cache_creation: 0, cache_read: 0}`
under Sonnet pricing yields `input_cost = 6`, `output_cost = 15`,
`total_cost = 21`. -/
theorem calculate_cost_pricing_spec :
    (∀ (tokens : TokenUsage) (model : Option String),
        calculate_cost tokens model
          = cost_with_pricing
              ((model.bind (fun m => MODEL_PRICING.lookup m)).getD DEFAULT_PRICING) tokens)
    ∧ (∀ (tokens : TokenUsage) (m : String), MODEL_PRICING.lookup m = none →
        calculate_cost tokens (some m) = cost_with_pricing DEFAULT_PRICING tokens)
    ∧ (∀ tokens : TokenUsage,
        calculate_cost tokens none = cost_with_pricing DEFAULT_PRICING tokens)
    ∧ calculate_cost ⟨2000000, 1000000, 0, 0⟩ (some "claude-sonnet-4-5-20250929")
        = { input_cost := 6, output_cost := 15, cache_write_cost := 0, cache_read_cost := 0 }
    ∧ (calculate_cost ⟨2000000, 1000000, 0, 0⟩
          (some "claude-sonnet-4-5-20250929")).total_cost = 21 := by
  refine ⟨fun t mo => rfl, fun t m h => ?_, fun t => rfl, ?_, ?_⟩
  · have h1 : calculate_cost t (some m)
        = cost_with_pricing ((MODEL_PRICING.lookup m).getD DEFAULT_PRICING) t := rfl
    rw [h1, h]
    rfl
  · norm_num [calculate_cost, MODEL_PRICING, DEFAULT_PRICING, List.lookup]
  · norm_num [calculate_cost, MODEL_PRICING, DEFAULT_PRICING, List.lookup,
      CostBreakdown.total_cost]

/-- Witness for `calculate_cost_pricing_spec`: the unknown model id `"gpt-4o"`
is priced with the default entry. -/
theorem calculate_cost_pricing_spec_witness :
    calculate_cost ⟨5, 7, 11, 13⟩ (some "gpt-4o")
      = cost_with_pricing DEFAULT_PRICING ⟨5, 7, 11, 13⟩ :=
  calculate_cost_pricing_spec.2.1 ⟨5, 7, 11, 13⟩ "gpt-4o" (by rfl)

/-- C3: for every `CostBreakdown`, `cache_savings` equals
`(cache_read_cost / default_cache_read_rate) * default_input_rate -
cache_read_cost` with the DEFAULT pricing table's rates (cache-read `0.30`
and input `3.00` per Mtok, i.e. `30/100` and `3`) regardless of which model
produced the cost, and `cache_savings ≥ 0` whenever `cache_read_cost ≥ 0`. -/
theorem cache_savings_default_rates :
    (∀ cb : CostBreakdown,
        cb.cache_savings
          = (cb.cache_read_cost / (30/100 : ℚ)) * 3 - cb.cache_read_cost)
    ∧ ∀ cb : CostBreakdown, 0 ≤ cb.cache_read_cost → 0 ≤ cb.cache_savings := by
  refine ⟨fun cb => rfl, fun cb h => ?_⟩
  have h9 : cb.cache_savings = 9 * cb.cache_read_cost := by
    simp only [CostBreakdown.cache_savings, DEFAULT_PRICING]
    ring
  rw [h9]
  positivity

/-- Witness for `cache_savings_default_rates` at a concrete breakdown. -/
theorem cache_savings_default_rates_witness :
    0 ≤ (CostBreakdown.mk 1 2 3 4).cache_savings :=
  cache_savings_default_rates.2 ⟨1, 2, 3, 4⟩ (by norm_num)

/-- C9: for every `TokenSummary`, `net_cost` equals `total_cost` and both
equal `cost_breakdown.total_cost`; cache savings are never subtracted from
the value reported as net. -/
theorem net_cost_eq_total_cost :
    ∀ s : TokenSummary,
      s.net_cost = s.total_cost ∧ s.total_cost = s.cost_breakdown.total_cost :=
  fun _ => ⟨rfl, rfl⟩

/-- C8: `format_token_count` renders `n ≥ 1_000_000` as one-decimal millions
with suffix `M`, `1_000 ≤ n < 1_000_000` as zero-decimal thousands with suffix
`K`, and smaller values as the exact integer; in particular `999 ↦ "999"`,
`1_000 ↦ "1K"` and `1_000_000 ↦ "1.0M"`. -/
theorem format_token_count_spec :
    (∀ n : ℕ, 1000000 ≤ n →
        format_token_count n = fmt_fixed1 ((n : ℚ) / 1000000) ++ "M")
    ∧ (∀ n : ℕ, 1000 ≤ n → n < 1000000 →
        format_token_count n = fmt_fixed0 ((n : ℚ) / 1000) ++ "K")
    ∧ (∀ n : ℕ, n < 1000 → format_token_count n = toString n)
    ∧ format_token_count 999 = "999"
    ∧ format_token_count 1000 = "1K"
    ∧ format_token_count 1000000 = "1.0M" := by
  refine ⟨fun n h => by simp [format_token_count, h], fun n h1 h2 => ?_, fun n h => ?_,
    ?_, ?_, ?_⟩
  · have hm : ¬ (1000000 ≤ n) := by omega
    simp [format_token_count, hm, h1]
  · have hm : ¬ (1000000 ≤ n) := by omega
    have hk : ¬ (1000 ≤ n) := by omega
    simp [format_token_count, hm, hk]
  · norm_num [format_token_count]
    rfl
  · norm_num [format_token_count, fmt_fixed0, round_half_even, Int.floor_one]
    rfl
  · norm_num [format_token_count, fmt_fixed1, round_half_even]
    rfl

/-- Witness for `format_token_count_spec`, one instance per guarded branch. -/
theorem format_token_count_spec_witness :
    format_token_count 5000000 = fmt_fixed1 (((5000000 : ℕ) : ℚ) / 1000000) ++ "M"
    ∧ format_token_count 500000 = fmt_fixed0 (((500000 : ℕ) : ℚ) / 1000) ++ "K"
    ∧ format_token_count 5 = toString (5 : ℕ) :=
  ⟨format_token_count_spec.1 5000000 (by norm_num),
   format_token_count_spec.2.1 500000 (by norm_num) (by norm_num),
   format_token_count_spec.2.2.1 5 (by norm_num)⟩

/-- The accumulation loop of `get_summary`: folding the per-model cost
accumulation over any model-usage list adds, field-wise, the sums of the
per-model costs to the initial accumulator. -/
theorem get_summary_foldl_eq (l : List (String × TokenUsage)) (a0 : CostBreakdown) :
    l.foldl
      (fun acc mu =>
        let model_cost := calculate_cost mu.2 (some mu.1)
        { input_cost := acc.input_cost + model_cost.input_cost,
          output_cost := acc.output_cost + model_cost.output_cost,
          cache_write_cost := acc.cache_write_cost + model_cost.cache_write_cost,
          cache_read_cost := acc.cache_read_cost + model_cost.cache_read_cost })
      a0
    = { input_cost := a0.input_cost
          + (l.map (fun mu => (calculate_cost mu.2 (some mu.1)).input_cost)).sum,
        output_cost := a0.output_cost
          + (l.map (fun mu => (calculate_cost mu.2 (some mu.1)).output_cost)).sum,
        cache_write_cost := a0.cache_write_cost
          + (l.map (fun mu => (calculate_cost mu.2 (some mu.1)).cache_write_cost)).sum,
        cache_read_cost := a0.cache_read_cost
          + (l.map (fun mu => (calculate_cost mu.2 (some mu.1)).cache_read_cost)).sum } := by
  induction l generalizing a0 with
  | nil => ext <;> simp
  | cons x xs ih =>
    simp only [List.foldl_cons, List.map_cons, List.sum_cons, ih]
    ext <;> simp <;> ring

/-- `get_summary`'s cost breakdown is, field-wise, the sum over the per-model
aggregate of each model's individually calculated costs (shared helper). -/
theorem get_summary_cost_breakdown (stats : SessionStats) :
    (get_summary stats).cost_breakdown
      = { input_cost :=
            (stats.model_usage.map
              (fun mu => (calculate_cost mu.2 (some mu.1)).input_cost)).sum,
          output_cost :=
            (stats.model_usage.map
              (fun mu => (calculate_cost mu.2 (some mu.1)).output_cost)).sum,
          cache_write_cost :=
            (stats.model_usage.map
              (fun mu => (calculate_cost mu.2 (some mu.1)).cache_write_cost)).sum,
          cache_read_cost :=
            (stats.model_usage.map
              (fun mu => (calculate_cost mu.2 (some mu.1)).cache_read_cost)).sum } := by
  have h0 : (get_summary stats).cost_breakdown
      = stats.model_usage.foldl
          (fun acc mu =>
            let model_cost := calculate_cost mu.2 (some mu.1)
            { input_cost := acc.input_cost + model_cost.input_cost,
              output_cost := acc.output_cost + model_cost.output_cost,
              cache_write_cost := acc.cache_write_cost + model_cost.cache_write_cost,
              cache_read_cost := acc.cache_read_cost + model_cost.cache_read_cost })
          { input_cost := 0, output_cost := 0, cache_write_cost := 0, cache_read_cost := 0 } :=
    rfl
  rw [h0, get_summary_foldl_eq]
  ext <;> simp

/-- C1: `get_summary` computes an individual `CostBreakdown` per
`(model, TokenUsage)` pair of the per-model aggregate via `calculate_cost`
and sums the four cost fields field-wise across models — never a blended
rate on the grand total; in particular, 1,000,000 input tokens on the
$3/Mtok Sonnet model plus 1,000,000 input tokens on the $15/Mtok Opus model
give an input-cost component of `18`, not `9`. -/
theorem get_summary_sums_per_model :
    (∀ stats : SessionStats,
        (get_summary stats).cost_breakdown.input_cost
            = (stats.model_usage.map
                (fun mu => (calculate_cost mu.2 (some mu.1)).input_cost)).sum
          ∧ (get_summary stats).cost_breakdown.output_cost
            = (stats.model_usage.map
                (fun mu => (calculate_cost mu.2 (some mu.1)).output_cost)).sum
          ∧ (get_summary stats).cost_breakdown.cache_write_cost
            = (stats.model_usage.map
                (fun mu => (calculate_cost mu.2 (some mu.1)).cache_write_cost)).sum
          ∧ (get_summary stats).cost_breakdown.cache_read_cost
            = (stats.model_usage.map
                (fun mu => (calculate_cost mu.2 (some mu.1)).cache_read_cost)).sum)
    ∧ (get_summary
        ⟨[("claude-sonnet-4-5-20250929", ⟨1000000, 0, 0, 0⟩),
          ("claude-opus-4-20250514", ⟨1000000, 0, 0, 0⟩)],
         ⟨2000000, 0, 0, 0⟩⟩).cost_breakdown.input_cost = 18 := by
  refine ⟨fun stats => ?_, ?_⟩
  · rw [get_summary_cost_breakdown]
    exact ⟨rfl, rfl, rfl, rfl⟩
  · have c1 : (calculate_cost ⟨1000000, 0, 0, 0⟩
        (some "claude-sonnet-4-5-20250929")).input_cost = 3 := by
      have hs : calculate_cost ⟨1000000, 0, 0, 0⟩ (some "claude-sonnet-4-5-20250929")
          = cost_with_pricing DEFAULT_PRICING ⟨1000000, 0, 0, 0⟩ := rfl
      rw [hs]
      norm_num [cost_with_pricing, DEFAULT_PRICING]
    have c2 : (calculate_cost ⟨1000000, 0, 0, 0⟩
        (some "claude-opus-4-20250514")).input_cost = 15 := by
      have ho : calculate_cost ⟨1000000, 0, 0, 0⟩ (some "claude-opus-4-20250514")
          = cost_with_pricing ⟨15, 75, 1875/100, 150/100⟩ ⟨1000000, 0, 0, 0⟩ := rfl
      rw [ho]
      norm_num [cost_with_pricing]
    rw [get_summary_cost_breakdown]
    simp [c1, c2]
    norm_num

/-- C6: `get_model_breakdown` has exactly one entry per model of the
per-model aggregate (its result is a permutation of the per-model
`(model, tokens, cost)` list), is ordered by total cost descending, and is
stable: the entries of any fixed cost keep their insertion order. Being a
pure function of the aggregate, repeated calls return the identical list. -/
theorem get_model_breakdown_sorted_stable :
    ∀ stats : SessionStats,
      (get_model_breakdown stats).Perm
          (stats.model_usage.map
            (fun mu => (mu.1, mu.2, (calculate_cost mu.2 (some mu.1)).total_cost)))
      ∧ (get_model_breakdown stats).Pairwise (fun a b => b.2.2 ≤ a.2.2)
      ∧ ∀ c : ℚ,
          (get_model_breakdown stats).filter (fun x => decide (x.2.2 = c))
            = (stats.model_usage.map
                (fun mu => (mu.1, mu.2, (calculate_cost mu.2 (some mu.1)).total_cost))).filter
                (fun x => decide (x.2.2 = c)) :=
  fun stats => by
  have hunfold : get_model_breakdown stats
      = sorted_desc (fun x : String × TokenUsage × ℚ => x.2.2)
          (stats.model_usage.map
            (fun mu => (mu.1, mu.2, (calculate_cost mu.2 (some mu.1)).total_cost))) := rfl
  rw [hunfold]
  exact ⟨sorted_desc_perm _ _, sorted_desc_pairwise _ _,
    fun c => sorted_desc_filter_eq _ c _⟩

/-- C4 counterexample: `get_project_breakdown` does NOT order its result by
descending project cost. With project "a" (cost 0) inserted before project
"b" (cost 3), the result keeps the input order, so it is not sorted
descending. -/
theorem get_project_breakdown_unsorted_cex :
    ¬ List.Pairwise
        (fun a b : String × TokenSummary => b.2.total_cost ≤ a.2.total_cost)
        (get_project_breakdown
          [("a", ⟨[], ⟨0, 0, 0, 0⟩⟩), ("b", ⟨[], ⟨1000000, 0, 0, 0⟩⟩)]) := by
  intro h
  simp only [get_project_breakdown, List.map_cons, List.map_nil,
    List.pairwise_cons, List.mem_cons, List.mem_singleton, List.not_mem_nil] at h
  have h3 := h.1 _ (Or.inl rfl)
  norm_num [TokenSummary.total_cost, calculate_cost, CostBreakdown.total_cost,
    DEFAULT_PRICING] at h3

/-- C4 (amended): `get_project_breakdown` returns one entry per project in
the iteration order of the parser's project-stats mapping — it applies no
cost sorting; that order is reproducible across repeated calls since the
function is pure. -/
theorem get_project_breakdown_input_order :
    ∀ ps : List (String × SessionStats),
      (get_project_breakdown ps).map Prod.fst = ps.map Prod.fst
      ∧ (get_project_breakdown ps).length = ps.length :=
  fun ps => ⟨map_fst_get_project_breakdown ps, by simp [get_project_breakdown]⟩

/-- C5: each project's `CostBreakdown` in `get_project_breakdown` is computed
from the project's already-merged `total_tokens` priced with the default
pricing-table entry only (the model argument is absent), ignoring the
per-model rates of the models used within the project. -/
theorem get_project_breakdown_default_pricing :
    ∀ ps : List (String × SessionStats),
      get_project_breakdown ps
        = ps.map (fun e =>
            (e.1,
              { total_tokens := e.2.total_tokens,
                cost_breakdown := cost_with_pricing DEFAULT_PRICING e.2.total_tokens,
                cache_efficiency_pct := e.2.total_tokens.cache_efficiency_percentage })) :=
  fun _ => rfl

/-- C7: in `get_model_by_project_breakdown`, the models within each project
are ordered by cost descending, and the projects are ordered by their total
cost (the sum of their models' costs) descending. -/
theorem get_model_by_project_breakdown_sorted :
    ∀ ps : List (String × SessionStats),
      (∀ e ∈ get_model_by_project_breakdown ps,
          e.2.Pairwise (fun a b : String × TokenUsage × ℚ => b.2.2 ≤ a.2.2))
      ∧ (get_model_by_project_breakdown ps).Pairwise
          (fun a b => (b.2.map (fun mc => mc.2.2)).sum
            ≤ (a.2.map (fun mc => mc.2.2)).sum) := by
  intro ps
  have hunfold : get_model_by_project_breakdown ps
      = sorted_desc
          (fun e : String × List (String × TokenUsage × ℚ) =>
            (e.2.map (fun mc => mc.2.2)).sum)
          (ps.filterMap (fun p =>
            let project_models := p.2.model_usage.map
              (fun mu => (mu.1, mu.2, (calculate_cost mu.2 (some mu.1)).total_cost))
            if project_models.isEmpty then none
            else some (p.1,
              sorted_desc (fun x : String × TokenUsage × ℚ => x.2.2) project_models))) :=
    rfl
  constructor
  · intro e he
    rw [hunfold] at he
    have he2 := ((sorted_desc_perm _ _).mem_iff).1 he
    obtain ⟨a, ha, hae⟩ := List.mem_filterMap.1 he2
    by_cases hemp : (a.2.model_usage.map
        (fun mu => (mu.1, mu.2, (calculate_cost mu.2 (some mu.1)).total_cost))).isEmpty
    · simp [hemp] at hae
    · simp only [hemp, Bool.false_eq_true, if_false, Option.some.injEq] at hae
      subst hae
      exact sorted_desc_pairwise _ _
  · rw [hunfold]
    exact sorted_desc_pairwise _ _

/-- Witness for `get_model_by_project_breakdown_sorted` on a one-project,
one-model input. -/
theorem get_model_by_project_breakdown_sorted_witness :
    List.Pairwise (fun a b : String × TokenUsage × ℚ => b.2.2 ≤ a.2.2)
      [("claude-opus-4-20250514", (⟨1000000, 0, 0, 0⟩ : TokenUsage),
        (calculate_cost ⟨1000000, 0, 0, 0⟩ (some "claude-opus-4-20250514")).total_cost)] :=
  (get_model_by_project_breakdown_sorted
      [("p", ⟨[("claude-opus-4-20250514", ⟨1000000, 0, 0, 0⟩)], ⟨1000000, 0, 0, 0⟩⟩)]).1
    ("p", [("claude-opus-4-20250514", ⟨1000000, 0, 0, 0⟩,
      (calculate_cost ⟨1000000, 0, 0, 0⟩ (some "claude-opus-4-20250514")).total_cost)])
    (List.Mem.head _)

/-- Keys of the per-project filterMap underlying
`get_model_by_project_breakdown`: exactly the projects with a non-empty
model-usage mapping, in input order (shared helper). -/
theorem map_fst_filterMap_projects (ps : List (String × SessionStats)) :
    (ps.filterMap (fun p =>
        let project_models := p.2.model_usage.map
          (fun mu => (mu.1, mu.2, (calculate_cost mu.2 (some mu.1)).total_cost))
        if project_models.isEmpty then none
        else some (p.1,
          sorted_desc (fun x : String × TokenUsage × ℚ => x.2.2) project_models))).map
        Prod.fst
      = (ps.filter (fun e => !e.2.model_usage.isEmpty)).map Prod.fst := by
  induction ps with
  | nil => rfl
  | cons a l ih =>
    obtain ⟨pa, sa⟩ := a
    by_cases hmu : sa.model_usage = []
    · have h1 : (fun p : String × SessionStats =>
          let project_models := p.2.model_usage.map
            (fun mu => (mu.1, mu.2, (calculate_cost mu.2 (some mu.1)).total_cost))
          if project_models.isEmpty then none
          else some (p.1,
            sorted_desc (fun x : String × TokenUsage × ℚ => x.2.2) project_models))
          (pa, sa) = none := by
        simp [hmu]
      have h2 : (!(pa, sa).2.model_usage.isEmpty) = false := by simp [hmu]
      simp only [List.filterMap_cons, h1, List.filter_cons, h2, Bool.false_eq_true,
        if_false]
      exact ih
    · have h1 : (fun p : String × SessionStats =>
          let project_models := p.2.model_usage.map
            (fun mu => (mu.1, mu.2, (calculate_cost mu.2 (some mu.1)).total_cost))
          if project_models.isEmpty then none
          else some (p.1,
            sorted_desc (fun x : String × TokenUsage × ℚ => x.2.2) project_models))
          (pa, sa)
          = some (pa,
              sorted_desc (fun x : String × TokenUsage × ℚ => x.2.2)
                (sa.model_usage.map
                  (fun mu => (mu.1, mu.2, (calculate_cost mu.2 (some mu.1)).total_cost)))) := by
        simp [List.isEmpty_iff, hmu]
      have h2 : (!(pa, sa).2.model_usage.isEmpty) = true := by
        simp [List.isEmpty_iff, hmu]
      simp only [List.filterMap_cons, h1, List.filter_cons, h2, if_true, List.map_cons,
        ih]

/-- C10: a project is a key of `get_model_by_project_breakdown` exactly when
its model-usage mapping is non-empty (projects with an empty mapping are
omitted), whereas `get_project_breakdown` keeps every project reported by
the parser; a project with an empty mapping (whose merged total is
therefore all-zero, the `SessionStats` invariant) gets the zero-token
`TokenSummary` priced at default rates. -/
theorem breakdown_project_keys :
    ∀ ps : List (String × SessionStats),
      ((get_model_by_project_breakdown ps).map Prod.fst).Perm
          ((ps.filter (fun e => !e.2.model_usage.isEmpty)).map Prod.fst)
      ∧ (∀ p : String,
          p ∈ (get_model_by_project_breakdown ps).map Prod.fst
            ↔ ∃ st : SessionStats, (p, st) ∈ ps ∧ st.model_usage ≠ [])
      ∧ (get_project_breakdown ps).map Prod.fst = ps.map Prod.fst
      ∧ ∀ (p : String) (st : SessionStats), (p, st) ∈ ps → st.model_usage = [] →
          st.total_tokens = ⟨0, 0, 0, 0⟩ →
            (p,
              ({ total_tokens := ⟨0, 0, 0, 0⟩,
                 cost_breakdown :=
                   { input_cost := 0, output_cost := 0,
                     cache_write_cost := 0, cache_read_cost := 0 },
                 cache_efficiency_pct := 0 } : TokenSummary))
              ∈ get_project_breakdown ps := by
  intro ps
  have hunfold : get_model_by_project_breakdown ps
      = sorted_desc
          (fun e : String × List (String × TokenUsage × ℚ) =>
            (e.2.map (fun mc => mc.2.2)).sum)
          (ps.filterMap (fun p =>
            let project_models := p.2.model_usage.map
              (fun mu => (mu.1, mu.2, (calculate_cost mu.2 (some mu.1)).total_cost))
            if project_models.isEmpty then none
            else some (p.1,
              sorted_desc (fun x : String × TokenUsage × ℚ => x.2.2) project_models))) :=
    rfl
  have hperm : ((get_model_by_project_breakdown ps).map Prod.fst).Perm
      ((ps.filter (fun e => !e.2.model_usage.isEmpty)).map Prod.fst) := by
    rw [hunfold, ← map_fst_filterMap_projects ps]
    exact (sorted_desc_perm _ _).map Prod.fst
  refine ⟨hperm, fun p => ?_, map_fst_get_project_breakdown ps, ?_⟩
  · rw [hperm.mem_iff]
    constructor
    · intro hp
      obtain ⟨e, he, hep⟩ := List.mem_map.1 hp
      obtain ⟨hel, heq⟩ := List.mem_filter.1 he
      refine ⟨e.2, ?_, ?_⟩
      · rw [← hep]
        simpa using hel
      · intro hnil
        rw [hnil] at heq
        simp at heq
    · intro hex
      obtain ⟨st, hst, hne⟩ := hex
      refine List.mem_map.2 ⟨(p, st), List.mem_filter.2 ⟨hst, ?_⟩, rfl⟩
      simp [List.isEmpty_iff, hne]
  · intro p st hmem hmu htt
    have hcost : calculate_cost (⟨0, 0, 0, 0⟩ : TokenUsage) none
        = ({ input_cost := 0, output_cost := 0,
             cache_write_cost := 0, cache_read_cost := 0 } : CostBreakdown) := by
      ext <;> norm_num [calculate_cost, DEFAULT_PRICING]
    refine List.mem_map.2 ⟨(p, st), hmem, ?_⟩
    show (p,
        ({ total_tokens := st.total_tokens,
           cost_breakdown := calculate_cost st.total_tokens none,
           cache_efficiency_pct := st.total_tokens.cache_efficiency_percentage } :
          TokenSummary)) = _
    rw [htt, hcost]
    rfl

/-- Witness for `breakdown_project_keys`: the empty-usage project "p" is
present in `get_project_breakdown` with the zero summary. -/
theorem breakdown_project_keys_witness :
    ("p",
      ({ total_tokens := ⟨0, 0, 0, 0⟩,
         cost_breakdown :=
           { input_cost := 0, output_cost := 0,
             cache_write_cost := 0, cache_read_cost := 0 },
         cache_efficiency_pct := 0 } : TokenSummary))
      ∈ get_project_breakdown [("p", ⟨[], ⟨0, 0, 0, 0⟩⟩)] :=
  (breakdown_project_keys [("p", ⟨[], ⟨0, 0, 0, 0⟩⟩)]).2.2.2 "p" ⟨[], ⟨0, 0, 0, 0⟩⟩
    (List.Mem.head _) rfl rfl
